import Mathlib

/-!
Verification of the tlsfingerprint.com server (Go) against its
natural-language specification, by shallow embedding in Lean 4.

Machine integers (uint16/uint32) are modelled as `Nat` with explicit
masks/mods where overflow matters.  Go byte strings are modelled as
`String` (all inputs of interest are ASCII) or `List Nat` (bytes).
Go slices become `List`, Go string scanning (`strings.Split`,
`strings.HasPrefix`, ...) is re-implemented structurally below so that
every definition reduces in the kernel; `sort.Strings` becomes
`List.insertionSort goStrLE` with `goStrLE` the byte-wise Go string order.
-/

namespace TrackMe

/-! ### Go string primitives -/

/-- Worker for `goSplit`: scan the char list, cutting at each (non-empty)
separator occurrence.  `fuel` is the remaining input length, making the
recursion structural so it reduces in the kernel. -/
def goSplitAux (sep : List Char) (acc : List Char) : Nat → List Char → List (List Char)
  | _, [] => [acc.reverse]
  | 0, l => [acc.reverse ++ l]
  | fuel + 1, c :: rest =>
    if sep.isPrefixOf (c :: rest) then
      acc.reverse :: goSplitAux sep [] fuel ((c :: rest).drop sep.length)
    else
      goSplitAux sep (c :: acc) fuel rest

/-- Model of Go `strings.Split(s, sep)` for a non-empty separator: split at
every non-overlapping occurrence, keeping empty pieces. -/
def goSplit (s sep : String) : List String :=
  if sep = "" then [s]
  else (goSplitAux sep.data [] s.data.length s.data).map fun l => ⟨l⟩

/-- Model of Go `strings.HasPrefix`. -/
def goHasPrefix (s p : String) : Bool := p.data.isPrefixOf s.data

/-- Model of Go `strings.Contains(s, string(c))` for a single character. -/
def goContainsChar (s : String) (c : Char) : Bool := s.data.contains c

/-- Model of Go `strings.Join`. -/
def goJoin (parts : List String) (sep : String) : String :=
  match parts with
  | [] => ""
  | p :: ps => ps.foldl (fun acc q => acc ++ sep ++ q) p

/-- Model of Go `strings.SplitN(s, sep, n)` for `n ≥ 1`: at most `n` pieces,
the last piece keeps the remaining separators. -/
def goSplitN (s sep : String) (n : Nat) : List String :=
  let parts := goSplit s sep
  if parts.length ≤ n then parts
  else parts.take (n - 1) ++ [goJoin (parts.drop (n - 1)) sep]

/-- Model of Go `strings.ToLower` restricted to ASCII (the only inputs the
fingerprint code feeds it are ASCII header/method/version strings). -/
def asciiLower (s : String) : String :=
  ⟨s.data.map fun c =>
    if 'A' ≤ c ∧ c ≤ 'Z' then Char.ofNat (c.toNat + 32) else c⟩

def isAsciiSpace (c : Char) : Bool :=
  c = ' ' || c = '\t' || c = '\n' || c = '\r' || c = '\x0b' || c = '\x0c'

/-- Model of Go `strings.TrimSpace` (ASCII whitespace; the header values the
server trims are ASCII). -/
def goTrimSpace (s : String) : String :=
  ⟨(s.data.dropWhile isAsciiSpace).reverse.dropWhile isAsciiSpace |>.reverse⟩

def decDigitsVal : List Char → Option Nat
  | [] => none
  | ds =>
    if ds.all (fun c => '0' ≤ c ∧ c ≤ '9') then
      some (ds.foldl (fun a c => a * 10 + (c.toNat - 48)) 0)
    else none

/-- Model of Go `strconv.Atoi`: optional sign, then at least one decimal
digit and nothing else.  (Overflow of the 64-bit range is not modelled; the
server compares the result against small bounds, and an overflowing literal
errors in Go and fails the same bound checks here.) -/
def goAtoi (s : String) : Option Int :=
  match s.data with
  | '+' :: ds => (decDigitsVal ds).map Int.ofNat
  | '-' :: ds => (decDigitsVal ds).map fun n => -(n : Int)
  | ds => (decDigitsVal ds).map Int.ofNat

/-- Decimal digit character, used to model Go `%02d` / `strconv.Itoa`. -/
def digitChar (n : Nat) : Char := Char.ofNat (48 + n % 10)

/-- Model of Go `fmt.Sprintf("%02d", n)` for the capped counters (always
`0 ≤ n ≤ 99` at the call sites). -/
def fmt02d (n : Nat) : String :=
  if n < 100 then ⟨[digitChar (n / 10), digitChar (n % 10)]⟩
  else Nat.repr n

/-- Lexicographic comparison of char lists; on ASCII strings this is
exactly Go's byte-wise string order used by `sort.Strings`. -/
def charListLE : List Char → List Char → Bool
  | [], _ => true
  | _ :: _, [] => false
  | a :: as, b :: bs => if a = b then charListLE as bs else decide (a < b)

/-- Go string order (`s₁ <= s₂` byte-wise), as a decidable relation that
reduces in the kernel. -/
def goStrLE (a b : String) : Prop := charListLE a.data b.data = true

instance : DecidableRel goStrLE := fun a b =>
  inferInstanceAs (Decidable (charListLE a.data b.data = true))

/-- Lowercase hex digit table. -/
def hexChar (n : Nat) : Char := "0123456789abcdef".data.getD n '0'

/-- Model of Go `fmt.Sprintf("%04x", n)` for a `uint16` value. -/
def toHex4 (n : Nat) : String :=
  ⟨[hexChar (n / 4096), hexChar (n / 256 % 16), hexChar (n / 16 % 16),
    hexChar (n % 16)]⟩

/-- Two lowercase hex digits of a byte. -/
def byteHex (n : Nat) : List Char := [hexChar (n / 16 % 16), hexChar (n % 16)]

/-- `utils.SplitBytesIntoChunks`: split a byte list into chunks of at most
`n` bytes (structural formulation so that it reduces in the kernel). -/
def splitIntoChunks (n : Nat) (l : List α) : List (List α) :=
  (List.range ((l.length + n - 1) / n)).map fun i => (l.drop (i * n)).take n

/-! ### SHA-256 (FIPS 180-4), on byte lists, words as `Nat` mod 2^32.
Models `utils.SHA256trunc` as the spec describes it: SHA-256 of the UTF-8
bytes, rendered as lowercase hex, truncated to 12 characters. -/

def mask32 : Nat := 4294967295

def rotr32 (x n : Nat) : Nat :=
  ((x >>> n) ||| (x <<< (32 - n))) &&& mask32

def shaK : List Nat :=
  [1116352408, 1899447441, 3049323471, 3921009573, 961987163, 1508970993,
   2453635748, 2870763221, 3624381080, 310598401, 607225278, 1426881987,
   1925078388, 2162078206, 2614888103, 3248222580, 3835390401, 4022224774,
   264347078, 604807628, 770255983, 1249150122, 1555081692, 1996064986,
   2554220882, 2821834349, 2952996808, 3210313671, 3336571891, 3584528711,
   113926993, 338241895, 666307205, 773529912, 1294757372, 1396182291,
   1695183700, 1986661051, 2177026350, 2456956037, 2730485921, 2820302411,
   3259730800, 3345764771, 3516065817, 3600352804, 4094571909, 275423344,
   430227734, 506948616, 659060556, 883997877, 958139571, 1322822218,
   1537002063, 1747873779, 1955562222, 2024104815, 2227730452, 2361852424,
   2428436474, 2756734187, 3204031479, 3329325298]

def shaH0 : List Nat :=
  [1779033703, 3144134277, 1013904242, 2773480762, 1359893119, 2600822924,
   528734635, 1541459225]

/-- Big-endian bytes of `n`, `k` bytes wide. -/
def beBytes (k n : Nat) : List Nat :=
  (List.range k).map fun i => (n >>> (8 * (k - 1 - i))) &&& 255

/-- SHA-256 padding of a byte message. -/
def shaPad (msg : List Nat) : List Nat :=
  let len := msg.length
  let zeros := (119 - len % 64) % 64
  msg ++ [128] ++ List.replicate zeros 0 ++ beBytes 8 (len * 8)

/-- Split padded bytes into 64-byte blocks. -/
def shaBlocks (l : List Nat) : List (List Nat) := splitIntoChunks 64 l

/-- The 16 big-endian 32-bit words of one 64-byte block. -/
def blockWords (b : List Nat) : List Nat :=
  (List.range 16).map fun i =>
    ((b.getD (4 * i) 0) <<< 24) + ((b.getD (4 * i + 1) 0) <<< 16) +
    ((b.getD (4 * i + 2) 0) <<< 8) + (b.getD (4 * i + 3) 0)

def smallSigma0 (x : Nat) : Nat := (rotr32 x 7) ^^^ (rotr32 x 18) ^^^ (x >>> 3)
def smallSigma1 (x : Nat) : Nat := (rotr32 x 17) ^^^ (rotr32 x 19) ^^^ (x >>> 10)
def bigSigma0 (x : Nat) : Nat := (rotr32 x 2) ^^^ (rotr32 x 13) ^^^ (rotr32 x 22)
def bigSigma1 (x : Nat) : Nat := (rotr32 x 6) ^^^ (rotr32 x 11) ^^^ (rotr32 x 25)

/-- Message schedule: extend 16 words to 64. -/
def shaSchedule (ws : List Nat) : List Nat :=
  (List.range 48).foldl
    (fun w _ =>
      let i := w.length
      w ++ [(smallSigma1 (w.getD (i - 2) 0) + w.getD (i - 7) 0 +
             smallSigma0 (w.getD (i - 15) 0) + w.getD (i - 16) 0) % 4294967296])
    ws

/-- One compression round. -/
def shaRound (st : List Nat) (ki wi : Nat) : List Nat :=
  let a := st.getD 0 0
  let b := st.getD 1 0
  let c := st.getD 2 0
  let d := st.getD 3 0
  let e := st.getD 4 0
  let f := st.getD 5 0
  let g := st.getD 6 0
  let h := st.getD 7 0
  let ch := (e &&& f) ^^^ ((e ^^^ mask32) &&& g)
  let maj := (a &&& b) ^^^ (a &&& c) ^^^ (b &&& c)
  let t1 := (h + bigSigma1 e + ch + ki + wi) % 4294967296
  let t2 := (bigSigma0 a + maj) % 4294967296
  [(t1 + t2) % 4294967296, a, b, c, (d + t1) % 4294967296, e, f, g]

/-- Compress one block into the running hash state. -/
def shaCompress (st : List Nat) (block : List Nat) : List Nat :=
  let w := shaSchedule (blockWords block)
  let fin := (List.range 64).foldl
    (fun s i => shaRound s (shaK.getD i 0) (w.getD i 0)) st
  (List.range 8).map fun i => (st.getD i 0 + fin.getD i 0) % 4294967296

/-- SHA-256 digest (32 bytes) of a byte message. -/
def sha256 (msg : List Nat) : List Nat :=
  let st := (shaBlocks (shaPad msg)).foldl shaCompress shaH0
  st.flatMap (beBytes 4)

/-- Bytes of an (ASCII) Go string. -/
def strBytes (s : String) : List Nat := s.data.map Char.toNat

/-- Lowercase hex rendering of the SHA-256 digest of a string. -/
def sha256hex (s : String) : String :=
  ⟨(sha256 (strBytes s)).flatMap byteHex⟩

/-- Modelled from the spec: `utils.SHA256trunc` (pkg/utils is not under
src/) — SHA-256 of the string, truncated to 12 lowercase hex characters. -/
def SHA256trunc (s : String) : String := ⟨(sha256hex s).data.take 12⟩

/-! ### ClientHello data model (pkg/tls) -/

/-- The parsed ClientHello fields the fingerprint kernel reads.
`Extensions` carries, per parsed extension, the optional `server_name`
payload (the only field `detectSNI` inspects in the `[]interface{}` list).
All ID lists are in wire order. -/
structure ClientHello where
  Version : Nat
  CipherSuites : List Nat
  AllExtensions : List Nat
  SignatureAlgorithms : List Nat
  SupportedProtocols : List String
  SupportedGroups : List Nat
  EcPointFormats : List Nat
  Extensions : List (Option String)
deriving DecidableEq

/-- Modelled from the spec: `types.IsGrease` (pkg/types is not under src/).
Spec §4.1: a value is GREASE iff `v & 0x0F0F == 0x0A0A` and both bytes are
equal (the 16 codepoints 0x0A0A, 0x1A1A, …, 0xFAFA).  The Go call sites pass
the value rendered as `0x%04X` (and, for ciphers, the cipher-suite name);
this model applies the canonical rule to the value itself. -/
def isGreaseValue (n : Nat) : Bool :=
  (n &&& 0x0F0F) == 0x0A0A && (n / 256 % 256 == n % 256)

/-- Simplified executable model of the Go stdlib test
`net.ParseIP(serverName) != nil`: dotted-quad IPv4, or a string containing a
colon (IPv6 shape).  No claim depends on which branch it takes — only that
`detectSNI` yields `"i"` or `"d"`. -/
def looksLikeIP (s : String) : Bool :=
  let parts := goSplit s "."
  (parts.length == 4 &&
    parts.all fun p => (decDigitsVal p.data).elim false (· ≤ 255)) ||
  goContainsChar s ':'

/-- `detectSNI` (pkg/tls/ja4.go): first extension exposing a non-empty
`server_name` decides `"i"` (IP literal) vs `"d"` (domain); default `"d"`. -/
def detectSNI (parsed : ClientHello) : String :=
  match parsed.Extensions.find? (fun o => o.getD "" ≠ "") with
  | some o => if looksLikeIP (o.getD "") then "i" else "d"
  | none => "d"

/-- Go pattern `getOrReturnOG`: look the key up, else return it unchanged. -/
def getOrReturnOG (s : String) (m : String → Option String) : String :=
  (m s).getD s

def tlsVersionMapping (s : String) : Option String :=
  if s = "769" then some "10"
  else if s = "770" then some "11"
  else if s = "771" then some "12"
  else if s = "772" then some "13"
  else none

def httpVersionMapping (s : String) : Option String :=
  if s = "h2" then some "h2"
  else if s = "h3" then some "h3"
  else if s = "2" then some "h2"
  else if s = "1.1" then some "h1"
  else if s = "1.0" then some "h1"
  else if s = "0.9" then some "h1"
  else none

/-- The `<alpn2>` code `ja4a_direct` derives from the first ALPN protocol
(Go indexes bytes; the inputs of interest are ASCII, so chars). -/
def firstAlpnCode (ps : List String) : String :=
  match ps with
  | [] => "00"
  | alpn :: _ =>
    match httpVersionMapping alpn with
    | some m => m
    | none =>
      match httpVersionMapping (asciiLower alpn) with
      | some m => m
      | none =>
        match alpn.data with
        | [] => "00"
        | c :: rest => ⟨[c, rest.getLastD c]⟩

/-- `ja4a_direct` (pkg/tls/ja4.go): JA4 part A. -/
def ja4a_direct (parsed : ClientHello) (negotiatedVersion : String) : String :=
  let tlsVersion := getOrReturnOG negotiatedVersion tlsVersionMapping
  let sniMode := detectSNI parsed
  let numSuites0 := (parsed.CipherSuites.filter (fun c => !isGreaseValue c)).length
  let numSuites := if numSuites0 > 99 then 99 else numSuites0
  let numExtensions0 := (parsed.AllExtensions.filter
    (fun e => !isGreaseValue e && e ≠ 0x0000 && e ≠ 0x0010)).length
  let numExtensions := if numExtensions0 > 99 then 99 else numExtensions0
  "t" ++ tlsVersion ++ sniMode ++ fmt02d numSuites ++ fmt02d numExtensions ++
    firstAlpnCode parsed.SupportedProtocols

/-- `ja4b_r_direct`: non-GREASE ciphers as lowercase 4-hex, sorted, joined. -/
def ja4b_r_direct (parsed : ClientHello) : String :=
  let ciphers := (parsed.CipherSuites.filter (fun c => !isGreaseValue c)).map toHex4
  goJoin (ciphers.insertionSort goStrLE) ","

/-- `ja4b_direct`: hashed part B. -/
def ja4b_direct (parsed : ClientHello) : String :=
  let result := ja4b_r_direct parsed
  if result = "" then "000000000000" else SHA256trunc result

/-- `ja4c_r_direct`: extensions minus GREASE/SNI/ALPN/padding as lowercase
4-hex sorted, then `_` and signature algorithms in wire order (suffix
omitted when there are none). -/
def ja4c_r_direct (parsed : ClientHello) : String :=
  let extensions := (parsed.AllExtensions.filter
    (fun e => !isGreaseValue e && e ≠ 0x0000 && e ≠ 0x0010 && e ≠ 0x0015)).map toHex4
  let sortedExt := extensions.insertionSort goStrLE
  let sigAlgs := parsed.SignatureAlgorithms.map toHex4
  let result := goJoin sortedExt ","
  if sigAlgs.length > 0 then result ++ "_" ++ goJoin sigAlgs ","
  else result

/-- `ja4c_direct`: hashed part C. -/
def ja4c_direct (parsed : ClientHello) : String :=
  let result := ja4c_r_direct parsed
  if result = "" then "000000000000" else SHA256trunc result

/-- `CalculateJa4Direct`: the full JA4 string. -/
def CalculateJa4Direct (parsed : ClientHello) (negotiatedVersion : String) : String :=
  ja4a_direct parsed negotiatedVersion ++ "_" ++ ja4b_direct parsed ++ "_" ++
    ja4c_direct parsed

/-- `CalculateJa4Direct_r`: the raw-mode JA4 string. -/
def CalculateJa4Direct_r (parsed : ClientHello) (negotiatedVersion : String) : String :=
  ja4a_direct parsed negotiatedVersion ++ "_" ++ ja4b_r_direct parsed ++ "_" ++
    ja4c_r_direct parsed

/-- Modelled from the spec: `tls.CalculateJA3` (pkg/tls/ja3.go is not under
src/).  Spec §4.2.1: comma-separated handshake version and `-`-joined
decimal cipher/extension/group/EC-point-format lists with GREASE omitted. -/
def CalculateJA3 (parsed : ClientHello) : String :=
  let dashJoin (l : List Nat) : String :=
    goJoin ((l.filter (fun v => !isGreaseValue v)).map Nat.repr) "-"
  Nat.repr parsed.Version ++ "," ++ dashJoin parsed.CipherSuites ++ "," ++
    dashJoin parsed.AllExtensions ++ "," ++ dashJoin parsed.SupportedGroups ++
    "," ++ dashJoin parsed.EcPointFormats

/-- Modelled from the spec: `tls.CalculatePeetPrint` (not under src/).
Spec §4.2.3: `"<groups>|<alpns>|<sigalgs>|<ext_ids_in_order>"`, exact
internal order preserved. -/
def CalculatePeetPrint (parsed : ClientHello) : String :=
  goJoin (parsed.SupportedGroups.map Nat.repr) "-" ++ "|" ++
    goJoin parsed.SupportedProtocols "-" ++ "|" ++
    goJoin (parsed.SignatureAlgorithms.map Nat.repr) "-" ++ "|" ++
    goJoin (parsed.AllExtensions.map Nat.repr) "-"

/-! ### JA4H (pkg/http, source text carried in src/docs/API_DOCS_IMPROVEMENTS.md) -/

/-- `getMethodPrefix`: first two bytes of the lowercased method. -/
def getMethodTwo (method : String) : String :=
  let m := asciiLower method
  if m.length ≥ 2 then ⟨m.data.take 2⟩ else m

/-- `getVersionString`: JA4H version code. -/
def getVersionString (httpVersion : String) : String :=
  let v := asciiLower httpVersion
  if v = "http/0.9" ∨ v = "0.9" then "09"
  else if v = "http/1.0" ∨ v = "1.0" then "10"
  else if v = "http/1.1" ∨ v = "1.1" ∨ v = "http/1" then "11"
  else if v = "http/2" ∨ v = "http/2.0" ∨ v = "h2" ∨ v = "2" ∨ v = "2.0" then "2"
  else if v = "http/3" ∨ v = "http/3.0" ∨ v = "h3" ∨ v = "3" ∨ v = "3.0" then "3"
  else "00"

/-- `extractHeaderName`: lowercased, trimmed name before the first colon. -/
def extractHeaderName (header : String) : String :=
  asciiLower (goTrimSpace ((goSplitN header ":" 2).getD 0 ""))

def isCookieHeader (header : String) : Bool :=
  goHasPrefix (asciiLower header) "cookie:"

def isRefererHeader (header : String) : Bool :=
  goHasPrefix (asciiLower header) "referer:" ||
    goHasPrefix (asciiLower header) "referrer:"

/-- `extractCookieValue`: trimmed value after the first colon (empty when
the header has no colon). -/
def extractCookieValue (header : String) : String :=
  let parts := goSplitN header ":" 2
  if parts.length = 2 then goTrimSpace (parts.getD 1 "") else ""

/-- The header-name list both JA4H variants build: drop Cookie/Referer
headers, extract names, drop empty names. -/
def ja4hNames (headers : List String) : List String :=
  ((headers.filter fun h => !isCookieHeader h && !isRefererHeader h).map
    extractHeaderName).filter (fun n => n ≠ "")

/-- The cookie-value list both JA4H variants build: values of Cookie
headers, dropping empties. -/
def ja4hCookies (headers : List String) : List String :=
  ((headers.filter isCookieHeader).map extractCookieValue).filter (fun v => v ≠ "")

/-- `calculateHeaderHash`: hash of the sorted, comma-joined names. -/
def calculateHeaderHash (headers : List String) : String :=
  let sorted := (ja4hNames headers).insertionSort goStrLE
  if sorted = [] then "000000000000"
  else SHA256trunc (goJoin sorted ",")

/-- `calculateCookieHash`: hash of the sorted, semicolon-joined values. -/
def calculateCookieHash (headers : List String) : String :=
  let cookies := (ja4hCookies headers).insertionSort goStrLE
  if cookies = [] then "000000000000"
  else SHA256trunc (goJoin cookies ";")

/-- `countHeaders`: headers that are neither Cookie nor Referer (note: no
empty-name filtering here, unlike the name list). -/
def countHeaders (headers : List String) : Nat :=
  (headers.filter fun h => !isCookieHeader h && !isRefererHeader h).length

/-- `CalculateJA4H` (hashed mode). -/
def CalculateJA4H (method httpVersion : String) (headers : List String) : String :=
  let count0 := countHeaders headers
  let count := if count0 > 99 then 99 else count0
  getMethodTwo method ++ getVersionString httpVersion ++ fmt02d count ++ "_" ++
    calculateHeaderHash headers ++ "_" ++ calculateCookieHash headers

/-- `CalculateJA4H_r` (raw mode): literal sorted name/cookie lists, `none`
for empties; the count is the length of the (empty-name-filtered) name
list. -/
def CalculateJA4H_r (method httpVersion : String) (headers : List String) : String :=
  let filtered := (ja4hNames headers).insertionSort goStrLE
  let cookies := (ja4hCookies headers).insertionSort goStrLE
  let count0 := (ja4hNames headers).length
  let count := if count0 > 99 then 99 else count0
  let headerList := goJoin filtered ","
  let headerList := if headerList = "" then "none" else headerList
  let cookieList := goJoin cookies ";"
  let cookieList := if cookieList = "" then "none" else cookieList
  getMethodTwo method ++ getVersionString httpVersion ++ fmt02d count ++ "_" ++
    headerList ++ "_" ++ cookieList

/-! ### HPACK model (instruction level)

`HTTP2Connection` keeps one persistent `hpack.Decoder` used by
`processFrames` to decode request headers, while `convertFrame` builds the
captured `ParsedFrame` for the same HEADERS frame with a *fresh* decoder.
The model works at the level of header-field representations: `indexed i`
(static indices 1–61, dynamic from 62), incremental-indexing literals
(which insert at the front of the dynamic table), and non-indexed
literals.  Byte/Huffman coding and the 4096-byte eviction limit are
orthogonal to the dynamic-table claims and are not modelled. -/

inductive HpackInstr where
  | indexed (i : Nat)
  | literalIncremental (name value : String)
  | literalNotIndexed (name value : String)
deriving DecidableEq

/-- RFC 7541 Appendix A static table (61 entries). -/
def hpackStaticTable : List (String × String) :=
  [(":authority", ""), (":method", "GET"), (":method", "POST"), (":path", "/"),
   (":path", "/index.html"), (":scheme", "http"), (":scheme", "https"),
   (":status", "200"), (":status", "204"), (":status", "206"),
   (":status", "304"), (":status", "400"), (":status", "404"),
   (":status", "500"), ("accept-charset", ""),
   ("accept-encoding", "gzip, deflate"), ("accept-language", ""),
   ("accept-ranges", ""), ("accept", ""), ("access-control-allow-origin", ""),
   ("age", ""), ("allow", ""), ("authorization", ""), ("cache-control", ""),
   ("content-disposition", ""), ("content-encoding", ""),
   ("content-language", ""), ("content-length", ""), ("content-location", ""),
   ("content-range", ""), ("content-type", ""), ("cookie", ""), ("date", ""),
   ("etag", ""), ("expect", ""), ("expires", ""), ("from", ""), ("host", ""),
   ("if-match", ""), ("if-modified-since", ""), ("if-none-match", ""),
   ("if-range", ""), ("if-unmodified-since", ""), ("last-modified", ""),
   ("link", ""), ("location", ""), ("max-forwards", ""),
   ("proxy-authenticate", ""), ("proxy-authorization", ""), ("range", ""),
   ("referer", ""), ("refresh", ""), ("retry-after", ""), ("server", ""),
   ("set-cookie", ""), ("strict-transport-security", ""),
   ("transfer-encoding", ""), ("user-agent", ""), ("vary", ""), ("via", ""),
   ("www-authenticate", "")]

/-- Decode one header-field representation against a dynamic table;
`none` is a decode error (index out of table range). -/
def hpackDecodeField (dyn : List (String × String)) :
    HpackInstr → Option ((String × String) × List (String × String))
  | .indexed i =>
    if i = 0 then none
    else if i ≤ 61 then (hpackStaticTable.get? (i - 1)).map fun e => (e, dyn)
    else (dyn.get? (i - 62)).map fun e => (e, dyn)
  | .literalIncremental n v => some ((n, v), (n, v) :: dyn)
  | .literalNotIndexed n v => some ((n, v), dyn)

/-- `hpack.Decoder.DecodeFull` on a header block: all fields decoded in
order, threading the dynamic table; errors abort the block. -/
def hpackDecodeFull (block : List HpackInstr) (dyn : List (String × String)) :
    Option (List (String × String) × List (String × String)) :=
  match block with
  | [] => some ([], dyn)
  | instr :: rest =>
    (hpackDecodeField dyn instr).bind fun fd =>
      (hpackDecodeFull rest fd.2).map fun fs => (fd.1 :: fs.1, fs.2)

/-- The frame loop's decoding of successive HEADERS blocks with the one
connection-wide decoder (`c.hpackDecoder` in `processFrames`): the dynamic
table persists from block to block.  A failing block yields `none` for that
stream (the code sends RST_STREAM and continues). -/
def persistentDecodeAll (blocks : List (List HpackInstr))
    (dyn : List (String × String)) : List (Option (List (String × String))) :=
  match blocks with
  | [] => []
  | b :: bs =>
    match hpackDecodeFull b dyn with
    | some (hs, dyn1) => some hs :: persistentDecodeAll bs dyn1
    | none => none :: persistentDecodeAll bs dyn

/-- `convertFrame` on a HEADERS frame: decodes the block with a **fresh**
decoder (`hpack.NewDecoder` inside `convertFrame`); on error it returns the
frame with no headers attached. -/
def convertFrameHeaders (block : List HpackInstr) : List (String × String) :=
  match hpackDecodeFull block [] with
  | some (hs, _) => hs
  | none => []

/-- The header lists attached to the captured HEADERS frames of a
connection (the lists `handleRequest` feeds to the JA4H computation). -/
def capturedHeadersAll (blocks : List (List HpackInstr)) :
    List (List (String × String)) :=
  blocks.map convertFrameHeaders

/-- `handleRequest` renders decoded header fields as `"name: value"`. -/
def headerFieldStrings (hs : List (String × String)) : List String :=
  hs.map fun nv => nv.1 ++ ": " ++ nv.2

/-! ### Stream body channel (C7)

`HTTP2Stream.bodyClosed` guards `close(stream.response)` under
`stream.mu` in both places that can close the channel: `handleData` on a
DATA frame with END_STREAM set, and `CloseStream`.  Because both critical
sections take the same per-stream mutex, any concurrent execution is an
interleaving of these two atomic sections, i.e. a sequence of events. -/

inductive BodyCloseEvent where
  | endStreamData
  | closeStream
deriving DecidableEq

structure BodyChannel where
  closed : Bool
  closeCount : Nat
deriving DecidableEq

/-- The guarded close both code paths perform under `stream.mu`:
`if !stream.bodyClosed { close(stream.response); stream.bodyClosed = true }`.
`closeCount` counts actual `close` calls (a second one would panic in Go). -/
def guardedClose (s : BodyChannel) : BodyChannel :=
  if s.closed then s else { closed := true, closeCount := s.closeCount + 1 }

def bodyStep (s : BodyChannel) : BodyCloseEvent → BodyChannel
  | .endStreamData => guardedClose s
  | .closeStream => guardedClose s

/-- A stream's life: the channel starts open, then any interleaving of
close-triggering events runs. -/
def runBodyEvents (evs : List BodyCloseEvent) : BodyChannel :=
  evs.foldl bodyStep { closed := false, closeCount := 0 }

/-! ### HTTP/2 response writing (connection_state.go `sendResponse`) -/

/-- Go `strconv.Itoa` on the (possibly signed) status value. -/
def goItoa (i : Int) : String :=
  if i < 0 then "-" ++ Nat.repr i.natAbs else Nat.repr i.natAbs

/-- `extractStatusCode` (connection_handler.go): status from
`/status/{code}` paths, else 200. -/
def extractStatusCode (path : String) : Int :=
  if !goHasPrefix path "/status/" then 200
  else
    let parts := goSplit path "/"
    match parts.get? 2 with
    | some s =>
      match goAtoi s with
      | some code => if code ≥ 100 ∧ code < 600 then code else 200
      | none => 200
    | none => 200

/-- What `sendResponse` puts on the wire for one stream.  `sentGoAway` /
`closedConn` record that the function's write path contains no GOAWAY
write and no connection close (the frame loop stays available for further
streams); `closedStream` records the final `CloseStream` call. -/
structure H2ResponseOut where
  status : Int
  headerList : List (String × String)
  endStream : Bool
  dataFrames : List (List Nat)
  sentGoAway : Bool
  closedConn : Bool
  closedStream : Bool

/-- `HTTP2Connection.sendResponse`, given the router's `(body, ctype)`
result.  `rid`/`rt` are the runtime request id and response time, and
`isAdmin` abstracts the admin-header scan over the captured frames. -/
def sendResponseModel (rid rt : String) (path : String)
    (routed : List Nat × String) (isAdmin : Bool) : H2ResponseOut :=
  let res0 := routed.1
  let ctype0 := routed.2
  let status0 := extractStatusCode path
  let redirected :=
    if goHasPrefix ctype0 "redirect:" then
      let parts := goSplitN ctype0 ":" 3
      if parts.length ≥ 3 then
        let st := match goAtoi (parts.getD 1 "") with
          | some code => code
          | none => status0
        some (st, parts.getD 2 "")
      else none
    else none
  let status1 := match redirected with | some (st, _) => st | none => status0
  let extra1 : List (String × String) :=
    match redirected with
    | some (_, loc) => [("location", loc)]
    | none => []
  let ctype1 := match redirected with
    | some _ => "text/html; charset=utf-8"
    | none => ctype0
  let res1 := match redirected with | some _ => [] | none => res0
  let cookieTagged :=
    if goHasPrefix ctype1 "set-cookies:" then
      let parts := goSplitN ctype1 ":" 3
      if parts.length ≥ 3 then
        some ((goSplit (parts.getD 1 "") "|").map fun c => ("set-cookie", c),
          parts.getD 2 "")
      else none
    else none
  let extra2 := extra1 ++ (match cookieTagged with | some (cs, _) => cs | none => [])
  let ctype2 := match cookieTagged with | some (_, ct) => ct | none => ctype1
  let headerList :=
    [(":status", goItoa status1), ("server", "TrackMe.peet.ws"),
     ("content-length", Nat.repr res1.length), ("content-type", ctype2),
     ("x-request-id", rid), ("x-response-time", rt)] ++
    extra2 ++
    (if goHasPrefix path "/gzip" then [("content-encoding", "gzip")]
     else if goHasPrefix path "/deflate" then [("content-encoding", "deflate")]
     else if goHasPrefix path "/brotli" then [("content-encoding", "br")]
     else []) ++
    [("alt-svc", "h3=\":443\"; ma=86400")] ++
    (if isAdmin then
      [("access-control-allow-origin", "*"),
       ("access-control-allow-methods", "*"),
       ("access-control-allow-headers", "*")]
     else [])
  { status := status1
    headerList := headerList
    endStream := res1.length == 0
    dataFrames := if res1.length > 0 then splitIntoChunks 16384 res1 else []
    sentGoAway := false
    closedConn := false
    closedStream := true }

/-! ### HTTPBin handlers (routes_httpbin.go) -/

/-- `httpbinRedirect`: `/redirect/{n}` with `1 ≤ n ≤ 10` (default 1),
empty body and the in-band `redirect:302:<next>` content-type tag. -/
def httpbinRedirect (path : String) : List Nat × String :=
  let parts := goSplit path "/"
  let n : Int :=
    match parts.get? 2 with
    | some s =>
      match goAtoi s with
      | some v => if v > 0 ∧ v ≤ 10 then v else 1
      | none => 1
    | none => 1
  let location := if n > 1 then "/redirect/" ++ goItoa (n - 1) else "/get"
  ([], "redirect:302:" ++ location)

/-- `httpbinBytes`: POST/PUT echo a non-empty body; otherwise `/bytes/{n}`
returns `n` deterministic bytes (`byte[i] = i mod 256`), with `n`
defaulting to 100 unless `0 < n ≤ 102400` parses from the path. -/
def httpbinBytes (method path : String) (body : List Nat) : List Nat × String :=
  if (method = "POST" ∨ method = "PUT") ∧ body.length > 0 then
    (body, "application/octet-stream")
  else
    let parts := goSplit path "/"
    let n : Int :=
      match parts.get? 2 with
      | some s =>
        match goAtoi s with
        | some v => if v > 0 ∧ v ≤ 102400 then v else 100
        | none => 100
      | none => 100
    ((List.range n.toNat).map fun i => i % 256, "application/octet-stream")

/-! ### HTTP/1.1 engine (connection_handler.go) -/

/-- The `types.Response` fields the HTTP/1 path populates.  `http1` is the
optional `*Http1Details` pointer: `none` models the nil pointer the
malformed-request branch leaves behind. -/
structure GoResponse where
  httpVersion : String
  method : String
  path : String
  userAgent : String
  http1 : Option (List String)
deriving DecidableEq

/-- `parseHTTP1`: split on CRLF, first line into three tokens, collect
colon-bearing lines as headers, track the last `user-agent` value. -/
def parseHTTP1 (request : String) : GoResponse :=
  let lines := goSplit request "\r\n"
  let firstLine := goSplit (lines.getD 0 "") " "
  let headers := lines.filter fun l => goContainsChar l ':'
  let userAgent := lines.foldl
    (fun acc l =>
      if goContainsChar l ':' ∧ goHasPrefix (asciiLower l) "user-agent" then
        goTrimSpace ((goSplit l ":").getD 1 "")
      else acc) ""
  if firstLine.length ≠ 3 then
    { httpVersion := "--", method := "--", path := "--", userAgent := "",
      http1 := none }
  else
    { httpVersion := firstLine.getD 2 "", method := firstLine.getD 0 "",
      path := firstLine.getD 1 "", userAgent := userAgent,
      http1 := some headers }

/-- Modelled from the spec: Go `http.StatusText` for the codes this server
emits (net/http is the standard library; unknown codes give `""`). -/
def goStatusText (code : Int) : String :=
  if code = 200 then "OK"
  else if code = 302 then "Found"
  else if code = 404 then "Not Found"
  else if code = 500 then "Internal Server Error"
  else ""

/-- `Server.respondToHTTP1`, given the router's result (the router itself
is infallible per the spec and irrelevant to the response-writing claim).
Returns the bytes written on the connection, or `none` when the Go code
panics: with an admin `cors_key` configured (`isKeySet`), the header scan
dereferences `resp.Http1.Headers`, a nil pointer for malformed requests. -/
def respondToHTTP1 (isKeySet : Bool) (key rid rt : String)
    (routed : List Nat × String) (resp : GoResponse) : Option String :=
  let res0 := if resp.method ≠ "OPTIONS" then routed.1 else []
  let ctype0 := if resp.method ≠ "OPTIONS" then routed.2 else "text/plain"
  let isAdmin0 := resp.method = "OPTIONS"
  let scanned : Option Bool :=
    if isKeySet then
      match resp.http1 with
      | none => none
      | some hs => some (isAdmin0 ∨ hs.any fun a => goHasPrefix a key)
    else some isAdmin0
  match scanned with
  | none => none
  | some isAdmin =>
    let status0 := extractStatusCode resp.path
    let redirected :=
      if goHasPrefix ctype0 "redirect:" then
        let parts := goSplitN ctype0 ":" 3
        if parts.length ≥ 3 then
          let st := match goAtoi (parts.getD 1 "") with
            | some code => code
            | none => status0
          some (st, parts.getD 2 "")
        else none
      else none
    let status1 := match redirected with | some (st, _) => st | none => status0
    let extra1 : List String :=
      match redirected with
      | some (_, loc) => ["Location: " ++ loc]
      | none => []
    let ctype1 := match redirected with
      | some _ => "text/html; charset=utf-8"
      | none => ctype0
    let res1 := match redirected with | some _ => [] | none => res0
    let cookieTagged :=
      if goHasPrefix ctype1 "set-cookies:" then
        let parts := goSplitN ctype1 ":" 3
        if parts.length ≥ 3 then
          some ((goSplit (parts.getD 1 "") "|").map fun c => "Set-Cookie: " ++ c,
            parts.getD 2 "")
        else none
      else none
    let extra2 := extra1 ++ (match cookieTagged with | some (cs, _) => cs | none => [])
    let ctype2 := match cookieTagged with | some (_, ct) => ct | none => ctype1
    let headerBlock :=
      "HTTP/1.1 " ++ goItoa status1 ++ " " ++ goStatusText status1 ++ "\r\n" ++
      "Content-Length: " ++ Nat.repr res1.length ++ "\r\n" ++
      "Content-Type: " ++ ctype2 ++ "; charset=utf-8\r\n" ++
      "X-Request-Id: " ++ rid ++ "\r\n" ++
      "X-Response-Time: " ++ rt ++ "\r\n" ++
      goJoin (extra2.map fun h => h ++ "\r\n") "" ++
      (if goHasPrefix resp.path "/gzip" then "Content-Encoding: gzip\r\n"
       else if goHasPrefix resp.path "/deflate" then "Content-Encoding: deflate\r\n"
       else if goHasPrefix resp.path "/brotli" then "Content-Encoding: br\r\n"
       else "") ++
      (if isAdmin then
        "Access-Control-Allow-Origin: *\r\nAccess-Control-Allow-Methods: *\r\nAccess-Control-Allow-Headers: *\r\n"
       else "") ++
      "Server: TrackMe\r\n" ++
      "Alt-Svc: h3=\":443\"; ma=86400\r\n" ++
      "\r\n" ++
      ⟨res1.map fun b => Char.ofNat b⟩ ++ "\r\n\r\n"
    some headerBlock

/-! ### The JA4 length-invariant regex of spec §8.3

`t(10|11|12|13)[di][0-9]{2}[0-9]{2}(h1|h2|h3|[0-9a-z]{2})_[0-9a-f]{12}_[0-9a-f]{12}`
as a full-match predicate.  Note `h1|h2|h3` are themselves in
`[0-9a-z]{2}`, so the ALPN alternation is the two-lowercase-alnum class. -/

def isDigitChar (c : Char) : Bool := '0' ≤ c && c ≤ '9'
def isLowerAlnumChar (c : Char) : Bool := isDigitChar c || ('a' ≤ c && c ≤ 'z')
def isHexLowerChar (c : Char) : Bool := isDigitChar c || ('a' ≤ c && c ≤ 'f')
def versToken (v1 v2 : Char) : Bool :=
  v1 == '1' && (v2 == '0' || v2 == '1' || v2 == '2' || v2 == '3')

def isJa4FormatL : List Char → Bool
  | t :: v1 :: v2 :: m :: n1 :: n2 :: e1 :: e2 :: a1 :: a2 :: u :: rest =>
    t == 't' && u == '_' && versToken v1 v2 && (m == 'd' || m == 'i') &&
    isDigitChar n1 && isDigitChar n2 && isDigitChar e1 && isDigitChar e2 &&
    isLowerAlnumChar a1 && isLowerAlnumChar a2 &&
    (rest.take 12).length == 12 && (rest.take 12).all isHexLowerChar &&
    (match rest.drop 12 with
     | u2 :: tl => u2 == '_' && tl.length == 12 && tl.all isHexLowerChar
     | [] => false)
  | _ => false

def isJa4Format (s : String) : Bool := isJa4FormatL s.data

/-! ### Statement-side definitions for the claims -/

/-- The part of a fingerprint string before its first underscore. -/
def firstSegment (s : String) : String :=
  ⟨s.data.takeWhile fun c => c ≠ '_'⟩

/-- JA4 part C exactly as the spec words it: the filtered extension IDs
sorted ascending (as numbers), each rendered as 4 lowercase hex digits and
comma-joined; then `_` and the signature algorithms in wire order,
the suffix omitted entirely when there are none. -/
def ja4cRawSpec (parsed : ClientHello) : String :=
  let ids := (parsed.AllExtensions.filter
    (fun e => !isGreaseValue e && e ≠ 0x0000 && e ≠ 0x0010 && e ≠ 0x0015)).insertionSort (· ≤ ·)
  let extPart := goJoin (ids.map toHex4) ","
  let sigs := parsed.SignatureAlgorithms.map toHex4
  if sigs = [] then extPart else extPart ++ "_" ++ goJoin sigs ","

/-- The common first segment of `CalculateJA4H` and `CalculateJA4H_r`:
method code, version code, capped header count. -/
def ja4hSeg1 (method httpVersion : String) (headers : List String) : String :=
  let c0 := countHeaders headers
  getMethodTwo method ++ getVersionString httpVersion ++
    fmt02d (if c0 > 99 then 99 else c0)

/-- The sorted, comma-joined header-name list underlying both JA4H modes. -/
def ja4hNamesJoined (headers : List String) : String :=
  goJoin ((ja4hNames headers).insertionSort goStrLE) ","

/-- The sorted, semicolon-joined cookie-value list underlying both modes. -/
def ja4hCookiesJoined (headers : List String) : String :=
  goJoin ((ja4hCookies headers).insertionSort goStrLE) ";"

/-- The redirect target of `/redirect/{n}`. -/
def redirectNextN (n : Nat) : String :=
  if n > 1 then "/redirect/" ++ Nat.repr (n - 1) else "/get"

/-- The `/bytes/{n}` parameter situations that fall back to `n = 100`:
absent, non-numeric, zero or negative, or greater than 102400. -/
def bytesFallbackParam (path : String) : Bool :=
  match (goSplit path "/").get? 2 with
  | none => true
  | some s =>
    match goAtoi s with
    | none => true
    | some v => decide (v ≤ 0) || decide (v > 102400)

/-- The byte count `/bytes/{n}` settles on for a GET. -/
def bytesParamN (path : String) : Int :=
  match (goSplit path "/").get? 2 with
  | some s =>
    match goAtoi s with
    | some v => if v > 0 ∧ v ≤ 102400 then v else 100
    | none => 100
  | none => 100

/-- The condition the C3 counterexample forces on the first ALPN protocol:
when present and not one of the mapped values, its first and last
characters must lie in `[0-9a-z]`. -/
def alpnOK (ps : List String) : Prop :=
  match ps with
  | [] => True
  | a :: _ =>
    httpVersionMapping a = none → httpVersionMapping (asciiLower a) = none →
    match a.data with
    | [] => True
    | c :: rest =>
      isLowerAlnumChar c = true ∧ isLowerAlnumChar (rest.getLastD c) = true

/-- A ClientHello whose first ALPN protocol is the (wire-legal) literal
`"AB"`: unmapped, so `ja4a_direct` copies its first and last bytes into
the JA4 string. -/
def alpnBadHello : ClientHello :=
  { Version := 771, CipherSuites := [], AllExtensions := [],
    SignatureAlgorithms := [], SupportedProtocols := ["AB"],
    SupportedGroups := [], EcPointFormats := [], Extensions := [] }

/-- A small well-behaved ClientHello used by witnesses. -/
def sampleHello : ClientHello :=
  { Version := 771, CipherSuites := [0x1301, 0xfafa],
    AllExtensions := [0x0a0a, 0x0000, 0x0010, 0x0015, 0x002b, 0x0005],
    SignatureAlgorithms := [0x0403, 0x0401], SupportedProtocols := ["h2"],
    SupportedGroups := [29, 23], EcPointFormats := [0],
    Extensions := [some "example.com"] }

/-! ### Order facts about `goStrLE` (it is a linear order) -/

theorem charListLE_total : ∀ as bs : List Char,
    charListLE as bs = true ∨ charListLE bs as = true
  | [], _ => Or.inl rfl
  | _ :: _, [] => Or.inr rfl
  | a :: as, b :: bs => by
    by_cases hab : a = b
    · subst hab
      simpa [charListLE] using charListLE_total as bs
    · rcases lt_or_gt_of_ne hab with h | h
      · left; simp [charListLE, hab, h]
      · right; simp [charListLE, Ne.symm hab, h]

theorem charListLE_trans : ∀ as bs cs : List Char,
    charListLE as bs = true → charListLE bs cs = true → charListLE as cs = true
  | [], _, _ => by intro _ _; rfl
  | _ :: _, [], _ => by intro h _; simp [charListLE] at h
  | _ :: _, _ :: _, [] => by intro _ h; simp [charListLE] at h
  | a :: as, b :: bs, c :: cs => by
    intro h1 h2
    by_cases hab : a = b <;> by_cases hbc : b = c
    · subst hab; subst hbc
      simp only [charListLE, if_pos rfl] at h1 h2 ⊢
      exact charListLE_trans as bs cs h1 h2
    · subst hab
      simpa [charListLE, hbc] using h2
    · subst hbc
      simpa [charListLE, hab] using h1
    · simp only [charListLE, if_neg hab, if_neg hbc, decide_eq_true_eq] at h1 h2
      have hac : a < c := lt_trans h1 h2
      simp [charListLE, ne_of_lt hac, hac]

theorem charListLE_antisymm : ∀ as bs : List Char,
    charListLE as bs = true → charListLE bs as = true → as = bs
  | [], [] => by intro _ _; rfl
  | [], _ :: _ => by intro _ h; simp [charListLE] at h
  | _ :: _, [] => by intro h _; simp [charListLE] at h
  | a :: as, b :: bs => by
    intro h1 h2
    by_cases hab : a = b
    · subst hab
      simp only [charListLE, if_pos rfl] at h1 h2
      rw [charListLE_antisymm as bs h1 h2]
    · exfalso
      simp only [charListLE, if_neg hab, if_neg (Ne.symm hab),
        decide_eq_true_eq] at h1 h2
      exact absurd (lt_trans h1 h2) (lt_irrefl a)

instance : IsTotal String goStrLE :=
  ⟨fun a b => charListLE_total a.data b.data⟩

instance : IsTrans String goStrLE :=
  ⟨fun a b c => charListLE_trans a.data b.data c.data⟩

instance : IsAntisymm String goStrLE :=
  ⟨fun a b h1 h2 => by
    cases a; cases b
    exact congrArg String.mk (charListLE_antisymm _ _ h1 h2)⟩

/-! ### C1 — HPACK dynamic-table consistency across streams -/

set_option maxRecDepth 40000


/-- C1: across sequential streams on one H2 connection, all decoded header
lists — including those attached to captured HEADERS frames feeding JA4H —
equal what the client encoded.  The claim FAILS on the code: the frame
loop's persistent decoder recovers `custom-key: custom-value` for both
streams, but `convertFrame` decodes every HEADERS frame with a fresh
decoder, so the second stream's captured frame (whose block references
dynamic-table index 62, inserted while decoding stream one) decodes with an
error and carries no headers; the JA4H derived from the captured frames
therefore differs from the JA4H of the headers the client encoded. -/
theorem claim_C1_hpack_captured_divergence :
    persistentDecodeAll
        [[HpackInstr.literalIncremental "custom-key" "custom-value"],
         [HpackInstr.indexed 62]] [] =
      [some [("custom-key", "custom-value")],
       some [("custom-key", "custom-value")]] ∧
    capturedHeadersAll
        [[HpackInstr.literalIncremental "custom-key" "custom-value"],
         [HpackInstr.indexed 62]] =
      [[("custom-key", "custom-value")], []] ∧
    CalculateJA4H "GET" "h2" (headerFieldStrings []) ≠
      CalculateJA4H "GET" "h2"
        (headerFieldStrings [("custom-key", "custom-value")]) := by
  refine ⟨by decide, by decide, by decide⟩

/-! ### C4 — JA4H trivial GET -/

/-- C4: for method `GET`, version `HTTP/2` and headers
`[user-agent: x, accept: */*]`, the JA4H prefix is `ge202`, the header
hash is the first 12 lowercase hex characters of SHA-256 of
`"accept,user-agent"`, and the cookie hash is `000000000000`. -/
theorem claim_C4_ja4h_trivial_get :
    CalculateJA4H "GET" "HTTP/2" ["user-agent: x", "accept: */*"] =
      "ge202_" ++ SHA256trunc "accept,user-agent" ++ "_000000000000" ∧
    SHA256trunc "accept,user-agent" = "e5a56608905c" ∧
    sha256hex "accept,user-agent" =
      "e5a56608905c66820e8f18ce3731916fdba8098ac5976fa25b5cc63fd09ed4b2" := by
  refine ⟨by decide, by decide, by decide⟩

/-! ### C7 — body channel closed exactly once -/

theorem foldl_bodyStep_fixed :
    ∀ evs : List BodyCloseEvent,
      evs.foldl bodyStep { closed := true, closeCount := 1 } =
        { closed := true, closeCount := 1 }
  | [] => rfl
  | e :: rest => by
    have h : bodyStep { closed := true, closeCount := 1 } e =
        { closed := true, closeCount := 1 } := by
      cases e <;> rfl
    rw [List.foldl_cons, h]
    exact foldl_bodyStep_fixed rest

/-- C7: over any interleaving of the two mutex-guarded close paths
(END_STREAM on a DATA frame, `CloseStream`), the stream body channel is
never closed twice, and any terminating stream (at least one close event)
closes it exactly once. -/
theorem claim_C7_body_channel_single_close :
    ∀ evs : List BodyCloseEvent,
      (runBodyEvents evs).closeCount ≤ 1 ∧
      (evs ≠ [] → (runBodyEvents evs).closeCount = 1) := by
  intro evs
  cases evs with
  | nil => exact ⟨by decide, fun h => absurd rfl h⟩
  | cons e rest =>
    have h1 : bodyStep { closed := false, closeCount := 0 } e =
        { closed := true, closeCount := 1 } := by cases e <;> rfl
    have h2 : runBodyEvents (e :: rest) = { closed := true, closeCount := 1 } := by
      unfold runBodyEvents
      rw [List.foldl_cons, h1]
      exact foldl_bodyStep_fixed rest
    rw [h2]
    exact ⟨le_refl 1, fun _ => rfl⟩

/-- Witness for C7: both paths racing (END_STREAM then CloseStream). -/
theorem claim_C7_body_channel_single_close_witness :
    (runBodyEvents [BodyCloseEvent.endStreamData,
      BodyCloseEvent.closeStream]).closeCount = 1 :=
  (claim_C7_body_channel_single_close
    [BodyCloseEvent.endStreamData, BodyCloseEvent.closeStream]).2 (by decide)

/-! ### C8 — malformed HTTP/1 first line -/

/-- C8: a first line without exactly three space-separated tokens yields
the `--`/`--`/`--` descriptor (with a nil `Http1` block).  The claim's
second half — the engine still writes a response — FAILS when an admin
`cors_key` is configured: `respondToHTTP1` then dereferences the nil
`resp.Http1` pointer and panics before writing (`none` below); with no key
configured a response is written. -/
theorem claim_C8_malformed_http1 :
    parseHTTP1 "GET /\r\nHost: a\r\n\r\n" =
      { httpVersion := "--", method := "--", path := "--", userAgent := "",
        http1 := none } ∧
    respondToHTTP1 true "x-admin-key" "R" "T" ([], "text/plain")
        (parseHTTP1 "GET /\r\nHost: a\r\n\r\n") = none ∧
    (respondToHTTP1 false "x-admin-key" "R" "T" ([], "text/plain")
        (parseHTTP1 "GET /\r\nHost: a\r\n\r\n")).isSome = true := by
  refine ⟨by decide, by decide, by decide⟩

/-! ### C9 — determinism of the fingerprint strings -/

/-- C9: JA3, JA4, JA4_r and PeetPrint are pure functions of the parsed
ClientHello (and negotiated-version string): equal inputs give
byte-identical fingerprints on any two runs. -/
theorem claim_C9_fingerprint_determinism :
    ∀ (a b : ClientHello) (v1 v2 : String), a = b → v1 = v2 →
      CalculateJA3 a = CalculateJA3 b ∧
      CalculateJa4Direct a v1 = CalculateJa4Direct b v2 ∧
      CalculateJa4Direct_r a v1 = CalculateJa4Direct_r b v2 ∧
      CalculatePeetPrint a = CalculatePeetPrint b := by
  intro a b v1 v2 hab hv
  subst hab; subst hv
  exact ⟨rfl, rfl, rfl, rfl⟩

/-- Witness for C9 at a concrete ClientHello. -/
theorem claim_C9_fingerprint_determinism_witness :
    CalculateJA3 sampleHello = CalculateJA3 sampleHello ∧
    CalculateJa4Direct sampleHello "771" = CalculateJa4Direct sampleHello "771" ∧
    CalculateJa4Direct_r sampleHello "771" =
      CalculateJa4Direct_r sampleHello "771" ∧
    CalculatePeetPrint sampleHello = CalculatePeetPrint sampleHello :=
  claim_C9_fingerprint_determinism sampleHello sampleHello "771" "771" rfl rfl

/-! ### C10 — /bytes/{n} fallback behaviour -/

/-- C10: a GET to `/bytes/{n}` with an absent, non-numeric, zero/negative
or too-large parameter falls back to 100 deterministic bytes
(`byte[i] = i mod 256`) as `application/octet-stream`; an in-range
parameter instead yields exactly `n` such bytes. -/
theorem httpbinBytes_eq_param (path : String) (body : List Nat) :
    httpbinBytes "GET" path body =
      ((List.range (bytesParamN path).toNat).map (· % 256),
        "application/octet-stream") := by
  have hm : ¬(("GET" = "POST" ∨ "GET" = "PUT") ∧ body.length > 0) := by simp
  unfold httpbinBytes
  rw [if_neg hm]
  rfl

theorem bytesParamN_fallback (path : String)
    (hfb : bytesFallbackParam path = true) : bytesParamN path = 100 := by
  unfold bytesFallbackParam at hfb
  unfold bytesParamN
  cases hget : (goSplit path "/").get? 2 with
  | none => simp only [hget]
  | some s =>
    simp only [hget] at hfb ⊢
    cases hatoi : goAtoi s with
    | none => simp only [hatoi]
    | some v =>
      simp only [hatoi, Bool.or_eq_true, decide_eq_true_eq] at hfb
      simp only [hatoi]
      have hrange : ¬(v > 0 ∧ v ≤ 102400) := by omega
      rw [if_neg hrange]

/-- C10: a GET to `/bytes/{n}` with an absent, non-numeric, zero/negative
or too-large parameter falls back to 100 deterministic bytes
(`byte[i] = i mod 256`) as `application/octet-stream`; an in-range
parameter instead yields exactly `n` such bytes. -/
theorem claim_C10_bytes_fallback :
    (∀ (path : String) (body : List Nat), bytesFallbackParam path = true →
      httpbinBytes "GET" path body =
        ((List.range 100).map (· % 256), "application/octet-stream")) ∧
    (∀ (path : String) (body : List Nat) (s : String) (n : Int),
      (goSplit path "/").get? 2 = some s → goAtoi s = some n →
      0 < n → n ≤ 102400 →
      httpbinBytes "GET" path body =
        ((List.range n.toNat).map (· % 256), "application/octet-stream")) := by
  constructor
  · intro path body hfb
    rw [httpbinBytes_eq_param, bytesParamN_fallback path hfb]
    rfl
  · intro path body s n hget hatoi hpos hle
    rw [httpbinBytes_eq_param]
    have hn : bytesParamN path = n := by
      unfold bytesParamN
      simp only [hget, hatoi]
      rw [if_pos ⟨hpos, hle⟩]
    rw [hn]

/-- Witness for C10: `/bytes/0` falls back to 100 bytes, `/bytes/5` gives
five. -/
theorem claim_C10_bytes_fallback_witness :
    bytesFallbackParam "/bytes/0" = true ∧
    httpbinBytes "GET" "/bytes/0" [] =
      ((List.range 100).map (· % 256), "application/octet-stream") ∧
    (goSplit "/bytes/5" "/").get? 2 = some "5" ∧
    goAtoi "5" = some 5 ∧
    httpbinBytes "GET" "/bytes/5" [] =
      ([0, 1, 2, 3, 4], "application/octet-stream") :=
  ⟨by decide, claim_C10_bytes_fallback.1 "/bytes/0" [] (by decide), by decide,
   by decide, by
    have h := claim_C10_bytes_fallback.2 "/bytes/5" [] "5" 5 (by decide)
      (by decide) (by decide) (by decide)
    simpa using h⟩

/-! ### C6 — /redirect/{n} and the H2 redirect response -/

/-- C6: for `1 ≤ n ≤ 10`, `/redirect/{n}` returns an empty body with tag
`redirect:302:<next>` (`/redirect/{n-1}` for `n > 1`, else `/get`), and
`sendResponse` then writes a single HEADERS frame with `:status 302`, a
`location` header equal to `<next>` and END_STREAM set (empty body, no
DATA), without any GOAWAY write or connection close. -/
theorem claim_C6_redirect_chain :
    ∀ n : Nat, 1 ≤ n → n ≤ 10 → ∀ rid rt : String,
      httpbinRedirect ("/redirect/" ++ Nat.repr n) =
        ([], "redirect:302:" ++ redirectNextN n) ∧
      sendResponseModel rid rt ("/redirect/" ++ Nat.repr n)
          ([], "redirect:302:" ++ redirectNextN n) false =
        { status := 302
          headerList := [(":status", "302"), ("server", "TrackMe.peet.ws"),
            ("content-length", "0"),
            ("content-type", "text/html; charset=utf-8"),
            ("x-request-id", rid), ("x-response-time", rt),
            ("location", redirectNextN n),
            ("alt-svc", "h3=\":443\"; ma=86400")]
          endStream := true
          dataFrames := []
          sentGoAway := false
          closedConn := false
          closedStream := true } := by
  intro n h1 h2 rid rt
  interval_cases n <;> exact ⟨by decide, rfl⟩

/-- Witness for C6 at `n = 2`. -/
theorem claim_C6_redirect_chain_witness :
    (1 ≤ 2 ∧ 2 ≤ 10) ∧
    (httpbinRedirect "/redirect/2" = ([], "redirect:302:/redirect/1") ∧
     sendResponseModel "R" "T" "/redirect/2"
         ([], "redirect:302:/redirect/1") false =
       { status := 302
         headerList := [(":status", "302"), ("server", "TrackMe.peet.ws"),
           ("content-length", "0"),
           ("content-type", "text/html; charset=utf-8"),
           ("x-request-id", "R"), ("x-response-time", "T"),
           ("location", "/redirect/1"),
           ("alt-svc", "h3=\":443\"; ma=86400")]
         endStream := true
         dataFrames := []
         sentGoAway := false
         closedConn := false
         closedStream := true }) :=
  ⟨⟨by decide, by decide⟩, claim_C6_redirect_chain 2 (by decide) (by decide) "R" "T"⟩

/-! ### C5 — JA4H vs JA4H_r -/

theorem append_ne_empty_of_left (s t : String) (h : s ≠ "") : s ++ t ≠ "" := by
  cases s with
  | mk ds =>
    cases t with
    | mk ts =>
      intro hc
      apply h
      have : ds ++ ts = [] := congrArg String.data hc
      rcases List.append_eq_nil.mp this with ⟨h1, _⟩
      rw [h1]

theorem goJoin_foldl_ne_empty (sep : String) :
    ∀ (ps : List String) (acc : String), acc ≠ "" →
      ps.foldl (fun a q => a ++ sep ++ q) acc ≠ ""
  | [], acc, h => h
  | p :: ps, acc, h => by
    rw [List.foldl_cons]
    exact goJoin_foldl_ne_empty sep ps (acc ++ sep ++ p)
      (append_ne_empty_of_left _ _ (append_ne_empty_of_left _ _ h))

/-- A join of nonempty strings is empty exactly when the list is. -/
theorem goJoin_eq_empty_iff (l : List String) (sep : String)
    (h : ∀ x ∈ l, x ≠ "") : goJoin l sep = "" ↔ l = [] := by
  cases l with
  | nil => simp [goJoin]
  | cons p ps =>
    simp only [goJoin]
    constructor
    · intro hc
      exact absurd hc (goJoin_foldl_ne_empty sep ps p (h p (by simp)))
    · intro hc
      exact absurd hc (by simp)

theorem mem_ja4hNames_ne_empty {hs : List String} {x : String}
    (hx : x ∈ ja4hNames hs) : x ≠ "" := by
  unfold ja4hNames at hx
  have := (List.mem_filter.mp hx).2
  simpa using this

theorem mem_ja4hCookies_ne_empty {hs : List String} {x : String}
    (hx : x ∈ ja4hCookies hs) : x ≠ "" := by
  unfold ja4hCookies at hx
  have := (List.mem_filter.mp hx).2
  simpa using this

/-- `calculateHeaderHash` in terms of the joined name list. -/
theorem calculateHeaderHash_eq (hs : List String) :
    calculateHeaderHash hs =
      (if ja4hNamesJoined hs = "" then "000000000000"
       else SHA256trunc (ja4hNamesJoined hs)) := by
  unfold calculateHeaderHash ja4hNamesJoined
  have hne : ∀ x ∈ (ja4hNames hs).insertionSort goStrLE, x ≠ "" := fun x hx =>
    mem_ja4hNames_ne_empty ((List.mem_insertionSort goStrLE).mp hx)
  by_cases hnil : (ja4hNames hs).insertionSort goStrLE = []
  · rw [if_pos hnil, if_pos ((goJoin_eq_empty_iff _ "," hne).mpr hnil)]
  · rw [if_neg hnil,
      if_neg (fun hc => hnil ((goJoin_eq_empty_iff _ "," hne).mp hc))]

/-- `calculateCookieHash` in terms of the joined cookie list. -/
theorem calculateCookieHash_eq (hs : List String) :
    calculateCookieHash hs =
      (if ja4hCookiesJoined hs = "" then "000000000000"
       else SHA256trunc (ja4hCookiesJoined hs)) := by
  unfold calculateCookieHash ja4hCookiesJoined
  have hne : ∀ x ∈ (ja4hCookies hs).insertionSort goStrLE, x ≠ "" := fun x hx =>
    mem_ja4hCookies_ne_empty ((List.mem_insertionSort goStrLE).mp hx)
  by_cases hnil : (ja4hCookies hs).insertionSort goStrLE = []
  · rw [if_pos hnil, if_pos ((goJoin_eq_empty_iff _ ";" hne).mpr hnil)]
  · rw [if_neg hnil,
      if_neg (fun hc => hnil ((goJoin_eq_empty_iff _ ";" hne).mp hc))]

/-- When every header extracts a nonempty name, the JA4H_r name list is the
full non-Cookie/Referer projection, so its length is `countHeaders`. -/
theorem ja4hNames_length_of_nonempty {hs : List String}
    (h : ∀ x ∈ hs, extractHeaderName x ≠ "") :
    (ja4hNames hs).length = countHeaders hs := by
  unfold ja4hNames countHeaders
  rw [List.filter_eq_self.mpr, List.length_map]
  intro a ha
  rcases List.mem_map.mp ha with ⟨x, hxmem, rfl⟩
  simpa using h x (List.mem_of_mem_filter hxmem)

/-- C5 counterexample: the header `": v"` (empty name before the colon) is
counted by `countHeaders` (JA4H) but dropped from the JA4H_r name list, so
the two first segments disagree: `ge201` vs `ge200`. -/
theorem claim_C5_counterexample :
    firstSegment (CalculateJA4H "GET" "HTTP/2" [": v"]) = "ge201" ∧
    firstSegment (CalculateJA4H_r "GET" "HTTP/2" [": v"]) = "ge200" ∧
    firstSegment (CalculateJA4H "GET" "HTTP/2" [": v"]) ≠
      firstSegment (CalculateJA4H_r "GET" "HTTP/2" [": v"]) := by
  refine ⟨by decide, by decide, by decide⟩

/-- C5 amended: provided every header has a nonempty name before its first
colon, `CalculateJA4H` and `CalculateJA4H_r` share the same first segment
(`<m2><v2><hc>`), and `JA4H_r` differs only by replacing the two hash
segments by the literal sorted comma-joined name list and sorted
semicolon-joined cookie list (`none` when empty, where the hashed mode uses
`000000000000`). -/
theorem claim_C5_amended :
    ∀ (m v : String) (hs : List String),
      (∀ x ∈ hs, extractHeaderName x ≠ "") →
      CalculateJA4H m v hs =
        ja4hSeg1 m v hs ++ "_" ++
        (if ja4hNamesJoined hs = "" then "000000000000"
         else SHA256trunc (ja4hNamesJoined hs)) ++ "_" ++
        (if ja4hCookiesJoined hs = "" then "000000000000"
         else SHA256trunc (ja4hCookiesJoined hs)) ∧
      CalculateJA4H_r m v hs =
        ja4hSeg1 m v hs ++ "_" ++
        (if ja4hNamesJoined hs = "" then "none" else ja4hNamesJoined hs) ++
        "_" ++
        (if ja4hCookiesJoined hs = "" then "none" else ja4hCookiesJoined hs) := by
  intro m v hs h
  constructor
  · unfold CalculateJA4H ja4hSeg1
    rw [calculateHeaderHash_eq, calculateCookieHash_eq]
  · unfold CalculateJA4H_r ja4hSeg1 ja4hNamesJoined ja4hCookiesJoined
    rw [ja4hNames_length_of_nonempty h]

/-- Witness for the amended C5 at a concrete header list. -/
theorem claim_C5_amended_witness :
    (∀ x ∈ ["user-agent: x", "cookie: a=b"], extractHeaderName x ≠ "") ∧
    (CalculateJA4H "GET" "HTTP/2" ["user-agent: x", "cookie: a=b"] =
        ja4hSeg1 "GET" "HTTP/2" ["user-agent: x", "cookie: a=b"] ++ "_" ++
        (if ja4hNamesJoined ["user-agent: x", "cookie: a=b"] = "" then
          "000000000000"
         else SHA256trunc (ja4hNamesJoined ["user-agent: x", "cookie: a=b"])) ++
        "_" ++
        (if ja4hCookiesJoined ["user-agent: x", "cookie: a=b"] = "" then
          "000000000000"
         else SHA256trunc (ja4hCookiesJoined ["user-agent: x", "cookie: a=b"])) ∧
     CalculateJA4H_r "GET" "HTTP/2" ["user-agent: x", "cookie: a=b"] =
        ja4hSeg1 "GET" "HTTP/2" ["user-agent: x", "cookie: a=b"] ++ "_" ++
        (if ja4hNamesJoined ["user-agent: x", "cookie: a=b"] = "" then "none"
         else ja4hNamesJoined ["user-agent: x", "cookie: a=b"]) ++ "_" ++
        (if ja4hCookiesJoined ["user-agent: x", "cookie: a=b"] = "" then "none"
         else ja4hCookiesJoined ["user-agent: x", "cookie: a=b"])) :=
  ⟨by decide,
   claim_C5_amended "GET" "HTTP/2" ["user-agent: x", "cookie: a=b"] (by decide)⟩

/-! ### C2 — JA4 part C -/

theorem charListLE_refl : ∀ l : List Char, charListLE l l = true
  | [] => rfl
  | a :: as => by simp [charListLE, charListLE_refl as]

theorem hexChar_strictMono {d e : Nat} (hd : d < 16) (he : e < 16)
    (h : d < e) : hexChar d < hexChar e := by
  have hall : ∀ d, d < 16 → ∀ e, e < 16 → d < e → hexChar d < hexChar e := by
    decide
  exact hall d hd e he h

theorem charListLE_cons_of_eq (c : Char) (as bs : List Char) :
    charListLE (c :: as) (c :: bs) = charListLE as bs := by
  simp [charListLE]

theorem charListLE_cons_of_lt {a b : Char} (h : a < b) (as bs : List Char) :
    charListLE (a :: as) (b :: bs) = true := by
  simp [charListLE, ne_of_lt h, h]

/-- `%04x` rendering is strictly monotone on `uint16` values w.r.t. the Go
string order. -/
theorem toHex4_lt {m n : Nat} (hm : m < 65536) (hn : n < 65536) (h : m < n) :
    charListLE (toHex4 m).data (toHex4 n).data = true := by
  have hm1 : m / 4096 < 16 := by omega
  have hn1 : n / 4096 < 16 := by omega
  have hb2 : m / 256 % 16 < 16 := Nat.mod_lt _ (by norm_num)
  have hb2' : n / 256 % 16 < 16 := Nat.mod_lt _ (by norm_num)
  have hb3 : m / 16 % 16 < 16 := Nat.mod_lt _ (by norm_num)
  have hb3' : n / 16 % 16 < 16 := Nat.mod_lt _ (by norm_num)
  have hb4 : m % 16 < 16 := Nat.mod_lt _ (by norm_num)
  have hb4' : n % 16 < 16 := Nat.mod_lt _ (by norm_num)
  have hdec : m / 4096 < n / 4096 ∨
      (m / 4096 = n / 4096 ∧ (m / 256 % 16 < n / 256 % 16 ∨
        (m / 256 % 16 = n / 256 % 16 ∧ (m / 16 % 16 < n / 16 % 16 ∨
          (m / 16 % 16 = n / 16 % 16 ∧ m % 16 < n % 16))))) := by omega
  show charListLE
    [hexChar (m / 4096), hexChar (m / 256 % 16), hexChar (m / 16 % 16),
     hexChar (m % 16)]
    [hexChar (n / 4096), hexChar (n / 256 % 16), hexChar (n / 16 % 16),
     hexChar (n % 16)] = true
  rcases hdec with h1 | ⟨e1, h2 | ⟨e2, h3 | ⟨e3, h4⟩⟩⟩
  · exact charListLE_cons_of_lt (hexChar_strictMono hm1 hn1 h1) _ _
  · rw [e1, charListLE_cons_of_eq]
    exact charListLE_cons_of_lt (hexChar_strictMono hb2 hb2' h2) _ _
  · rw [e1, e2, charListLE_cons_of_eq, charListLE_cons_of_eq]
    exact charListLE_cons_of_lt (hexChar_strictMono hb3 hb3' h3) _ _
  · rw [e1, e2, e3, charListLE_cons_of_eq, charListLE_cons_of_eq,
      charListLE_cons_of_eq]
    exact charListLE_cons_of_lt (hexChar_strictMono hb4 hb4' h4) _ _

theorem goStrLE_toHex4 {m n : Nat} (hm : m < 65536) (hn : n < 65536)
    (h : m ≤ n) : goStrLE (toHex4 m) (toHex4 n) := by
  rcases Nat.lt_or_ge m n with hlt | hge
  · exact toHex4_lt hm hn hlt
  · have heq : m = n := le_antisymm h hge
    subst heq
    exact charListLE_refl _

/-- Sorting the `%04x` strings with Go's byte-wise string order equals
sorting the `uint16` IDs numerically and then rendering. -/
theorem insertionSort_map_toHex4 (l : List Nat) (hb : ∀ x ∈ l, x < 65536) :
    (l.map toHex4).insertionSort goStrLE =
      (l.insertionSort (· ≤ ·)).map toHex4 := by
  apply List.eq_of_perm_of_sorted (r := goStrLE)
  · exact (List.perm_insertionSort goStrLE _).trans
      (List.Perm.map toHex4 (List.perm_insertionSort (· ≤ ·) l)).symm
  · exact List.sorted_insertionSort _ _
  · show List.Pairwise goStrLE ((l.insertionSort (· ≤ ·)).map toHex4)
    refine List.pairwise_map.mpr ?_
    have hs : List.Pairwise (· ≤ ·) (l.insertionSort (· ≤ ·)) :=
      List.sorted_insertionSort _ l
    refine hs.imp_of_mem fun {a b} ha hb' hle => ?_
    exact goStrLE_toHex4 (hb a ((List.mem_insertionSort _).mp ha))
      (hb b ((List.mem_insertionSort _).mp hb')) hle

/-- C2: part C raw is the filtered extension IDs sorted ascending as four
lowercase hex digits, comma-joined, with the wire-order signature
algorithms after an underscore (omitted when there are none); part C
hashed is SHA-256 of the raw string truncated to 12 lowercase hex
characters, `000000000000` when the raw string is empty. -/
theorem claim_C2_ja4c :
    ∀ parsed : ClientHello, (∀ e ∈ parsed.AllExtensions, e < 65536) →
      ja4c_r_direct parsed = ja4cRawSpec parsed ∧
      ja4c_direct parsed =
        (if ja4c_r_direct parsed = "" then "000000000000"
         else ⟨(sha256hex (ja4c_r_direct parsed)).data.take 12⟩) := by
  intro parsed hb
  constructor
  · unfold ja4c_r_direct ja4cRawSpec
    dsimp only
    have hbf : ∀ x ∈ parsed.AllExtensions.filter
        (fun e => !isGreaseValue e && e ≠ 0x0000 && e ≠ 0x0010 && e ≠ 0x0015),
        x < 65536 := fun x hx => hb x (List.mem_of_mem_filter hx)
    rw [insertionSort_map_toHex4 _ hbf]
    cases hsig : parsed.SignatureAlgorithms with
    | nil => simp
    | cons a as => simp
  · rfl

/-- Witness for C2 at a ClientHello holding GREASE, SNI, ALPN, padding and
two signature algorithms. -/
theorem claim_C2_ja4c_witness :
    (∀ e ∈ sampleHello.AllExtensions, e < 65536) ∧
    ja4c_r_direct sampleHello = ja4cRawSpec sampleHello ∧
    ja4c_r_direct sampleHello = "0005,002b_0403,0401" ∧
    ja4c_direct sampleHello =
      (if ja4c_r_direct sampleHello = "" then "000000000000"
       else ⟨(sha256hex (ja4c_r_direct sampleHello)).data.take 12⟩) :=
  ⟨by decide, (claim_C2_ja4c sampleHello (by decide)).1, by decide,
   (claim_C2_ja4c sampleHello (by decide)).2⟩

/-! ### C3 — the JA4 length invariant -/

theorem digitChar_isDigit (k : Nat) : isDigitChar (digitChar k) = true := by
  have h : k % 10 < 10 := Nat.mod_lt _ (by norm_num)
  have hall : ∀ r, r < 10 → isDigitChar (Char.ofNat (48 + r)) = true := by
    decide
  exact hall (k % 10) h

theorem fmt02d_data {n : Nat} (h : n < 100) :
    (fmt02d n).data = [digitChar (n / 10), digitChar (n % 10)] := by
  unfold fmt02d
  rw [if_pos h]

theorem hexChar_isHex (n : Nat) : isHexLowerChar (hexChar n) = true := by
  rcases Nat.lt_or_ge n 16 with h | h
  · have hall : ∀ r, r < 16 → isHexLowerChar (hexChar r) = true := by decide
    exact hall n h
  · unfold hexChar
    rw [List.getD_eq_default _ _
      (le_trans (le_of_eq (by rfl)) h : ("0123456789abcdef").data.length ≤ n)]
    decide

theorem beBytes_length (k n : Nat) : (beBytes k n).length = k := by
  simp [beBytes]

theorem shaCompress_length (st b : List Nat) : (shaCompress st b).length = 8 := by
  simp [shaCompress]

theorem foldl_shaCompress_length :
    ∀ (bs : List (List Nat)) (st : List Nat), st.length = 8 →
      (bs.foldl shaCompress st).length = 8
  | [], _, h => h
  | b :: bs, st, _ => by
    rw [List.foldl_cons]
    exact foldl_shaCompress_length bs _ (shaCompress_length st b)

theorem flatMap_beBytes4_length :
    ∀ l : List Nat, (l.flatMap (beBytes 4)).length = 4 * l.length
  | [] => rfl
  | a :: l => by
    simp only [List.flatMap_cons, List.length_append, beBytes_length,
      flatMap_beBytes4_length l, List.length_cons]
    omega

theorem flatMap_byteHex_length :
    ∀ l : List Nat, (l.flatMap byteHex).length = 2 * l.length
  | [] => rfl
  | a :: l => by
    simp only [List.flatMap_cons, List.length_append, byteHex,
      flatMap_byteHex_length l, List.length_cons, List.length_nil]
    omega

theorem sha256_length (msg : List Nat) : (sha256 msg).length = 32 := by
  unfold sha256
  dsimp only
  rw [flatMap_beBytes4_length, foldl_shaCompress_length _ shaH0 (by rfl)]

theorem sha256hex_length (s : String) : (sha256hex s).data.length = 64 := by
  show ((sha256 (strBytes s)).flatMap byteHex).length = 64
  rw [flatMap_byteHex_length, sha256_length]

theorem flatMap_byteHex_all_hex (l : List Nat) :
    (l.flatMap byteHex).all isHexLowerChar = true := by
  rw [List.all_eq_true]
  intro c hc
  rcases List.mem_flatMap.mp hc with ⟨b, _, hcb⟩
  simp only [byteHex, List.mem_cons, List.not_mem_nil, or_false] at hcb
  rcases hcb with rfl | rfl <;> exact hexChar_isHex _

/-- The hashed JA4 parts are always 12 lowercase hex characters. -/
theorem hashOutput_shape (r : String) :
    ((if r = "" then "000000000000" else SHA256trunc r)).data.length = 12 ∧
    ((if r = "" then "000000000000" else SHA256trunc r)).data.all
      isHexLowerChar = true := by
  by_cases h : r = ""
  · rw [if_pos h]
    exact ⟨rfl, rfl⟩
  · rw [if_neg h]
    constructor
    · show ((sha256hex r).data.take 12).length = 12
      rw [List.length_take, sha256hex_length]
      decide
    · rw [List.all_eq_true]
      intro c hc
      have hc' : c ∈ (sha256hex r).data := List.take_subset _ _ hc
      have hall := flatMap_byteHex_all_hex (sha256 (strBytes r))
      rw [List.all_eq_true] at hall
      exact hall c hc'

theorem ja4b_direct_shape (p : ClientHello) :
    (ja4b_direct p).data.length = 12 ∧
    (ja4b_direct p).data.all isHexLowerChar = true :=
  hashOutput_shape (ja4b_r_direct p)

theorem ja4c_direct_shape (p : ClientHello) :
    (ja4c_direct p).data.length = 12 ∧
    (ja4c_direct p).data.all isHexLowerChar = true :=
  hashOutput_shape (ja4c_r_direct p)

theorem detectSNI_cases (p : ClientHello) :
    detectSNI p = "d" ∨ detectSNI p = "i" := by
  unfold detectSNI
  cases hfind : p.Extensions.find? (fun o => o.getD "" ≠ "") with
  | none => left; rfl
  | some o =>
    by_cases hip : looksLikeIP (o.getD "")
    · right; simp [hip]
    · left; simp [hip]

theorem firstAlpn_shape (ps : List String) (h : alpnOK ps) :
    ∃ a1 a2, (firstAlpnCode ps).data = [a1, a2] ∧
      isLowerAlnumChar a1 = true ∧ isLowerAlnumChar a2 = true := by
  cases ps with
  | nil => exact ⟨'0', '0', rfl, by decide, by decide⟩
  | cons a rest =>
    cases hm1 : httpVersionMapping a with
    | some m =>
      have hmem : m = "h2" ∨ m = "h3" ∨ m = "h1" := by
        unfold httpVersionMapping at hm1
        split_ifs at hm1 <;> simp_all
      have hcode : firstAlpnCode (a :: rest) = m := by
        simp [firstAlpnCode, hm1]
      rcases hmem with rfl | rfl | rfl
      · exact ⟨'h', '2', by rw [hcode], by decide, by decide⟩
      · exact ⟨'h', '3', by rw [hcode], by decide, by decide⟩
      · exact ⟨'h', '1', by rw [hcode], by decide, by decide⟩
    | none =>
      cases hm2 : httpVersionMapping (asciiLower a) with
      | some m =>
        have hmem : m = "h2" ∨ m = "h3" ∨ m = "h1" := by
          unfold httpVersionMapping at hm2
          split_ifs at hm2 <;> simp_all
        have hcode : firstAlpnCode (a :: rest) = m := by
          simp [firstAlpnCode, hm1, hm2]
        rcases hmem with rfl | rfl | rfl
        · exact ⟨'h', '2', by rw [hcode], by decide, by decide⟩
        · exact ⟨'h', '3', by rw [hcode], by decide, by decide⟩
        · exact ⟨'h', '1', by rw [hcode], by decide, by decide⟩
      | none =>
        have hc := h hm1 hm2
        cases hd : a.data with
        | nil =>
          exact ⟨'0', '0', by simp [firstAlpnCode, hm1, hm2, hd], by decide,
            by decide⟩
        | cons c cs =>
          rw [hd] at hc
          exact ⟨c, cs.getLastD c, by simp [firstAlpnCode, hm1, hm2, hd],
            hc.1, hc.2⟩

theorem ja4a_data_eq (p : ClientHello) (nv : String) {v1 v2 mc a1 a2 : Char}
    (hverd : (getOrReturnOG nv tlsVersionMapping).data = [v1, v2])
    (hsnid : (detectSNI p).data = [mc])
    (halpnd : (firstAlpnCode p.SupportedProtocols).data = [a1, a2]) :
    (ja4a_direct p nv).data =
      't' :: v1 :: v2 :: mc ::
      ((fmt02d (if (p.CipherSuites.filter fun c => !isGreaseValue c).length > 99
          then 99
          else (p.CipherSuites.filter fun c => !isGreaseValue c).length)).data ++
       ((fmt02d (if (p.AllExtensions.filter fun e =>
            !isGreaseValue e && e ≠ 0x0000 && e ≠ 0x0010).length > 99
          then 99
          else (p.AllExtensions.filter fun e =>
            !isGreaseValue e && e ≠ 0x0000 && e ≠ 0x0010).length)).data ++
        [a1, a2])) := by
  unfold ja4a_direct
  dsimp only
  rw [String.data_append, String.data_append, String.data_append,
    String.data_append, String.data_append, hverd, hsnid, halpnd]
  simp [List.append_assoc]

theorem isJa4FormatL_intro (v1 v2 m d1 d2 e1 e2 a1 a2 : Char) (B C : List Char)
    (hv : versToken v1 v2 = true) (hm : (m == 'd' || m == 'i') = true)
    (hd1 : isDigitChar d1 = true) (hd2 : isDigitChar d2 = true)
    (he1 : isDigitChar e1 = true) (he2 : isDigitChar e2 = true)
    (ha1 : isLowerAlnumChar a1 = true) (ha2 : isLowerAlnumChar a2 = true)
    (hBl : B.length = 12) (hBa : B.all isHexLowerChar = true)
    (hCl : C.length = 12) (hCa : C.all isHexLowerChar = true) :
    isJa4FormatL ('t' :: v1 :: v2 :: m :: d1 :: d2 :: e1 :: e2 :: a1 :: a2 ::
      '_' :: (B ++ '_' :: C)) = true := by
  simp only [isJa4FormatL]
  rw [List.take_left' hBl, List.drop_left' hBl]
  simp [hv, hm, hd1, hd2, he1, he2, ha1, ha2, hBl, hBa, hCl, hCa]

/-- C3 counterexample: the wire-legal ALPN literal `"AB"` is copied
verbatim into the JA4 A part, whose last two characters are then uppercase
and violate the claimed regex. -/
theorem claim_C3_counterexample :
    CalculateJa4Direct alpnBadHello "771" =
      "t12d0000AB_000000000000_000000000000" ∧
    isJa4Format (CalculateJa4Direct alpnBadHello "771") = false := by
  refine ⟨by decide, by decide⟩

/-- C3 amended: for a negotiated-version string naming a real TLS version
(769–772) and a ClientHello whose first ALPN protocol, when present and
unmapped, has first and last characters in `[0-9a-z]`, the JA4 string
matches `t(10|11|12|13)[di][0-9]{2}[0-9]{2}(h1|h2|h3|[0-9a-z]{2})_[0-9a-f]{12}_[0-9a-f]{12}`. -/
theorem claim_C3_amended :
    ∀ (parsed : ClientHello) (nv : String),
      (nv = "769" ∨ nv = "770" ∨ nv = "771" ∨ nv = "772") →
      alpnOK parsed.SupportedProtocols →
      isJa4Format (CalculateJa4Direct parsed nv) = true := by
  intro p nv hv halpn
  have hver : ∃ v1 v2, (getOrReturnOG nv tlsVersionMapping).data = [v1, v2] ∧
      versToken v1 v2 = true := by
    rcases hv with rfl | rfl | rfl | rfl
    · exact ⟨'1', '0', by decide, by decide⟩
    · exact ⟨'1', '1', by decide, by decide⟩
    · exact ⟨'1', '2', by decide, by decide⟩
    · exact ⟨'1', '3', by decide, by decide⟩
  obtain ⟨v1, v2, hverd, hvtok⟩ := hver
  have hsni : ∃ mc, (detectSNI p).data = [mc] ∧ (mc == 'd' || mc == 'i') = true := by
    rcases detectSNI_cases p with h | h
    · exact ⟨'d', by rw [h], by decide⟩
    · exact ⟨'i', by rw [h], by decide⟩
  obtain ⟨mc, hsnid, hmok⟩ := hsni
  obtain ⟨a1, a2, halpnd, ha1, ha2⟩ := firstAlpn_shape p.SupportedProtocols halpn
  have hB := ja4b_direct_shape p
  have hC := ja4c_direct_shape p
  have h99a : (if (p.CipherSuites.filter fun c => !isGreaseValue c).length > 99
      then 99
      else (p.CipherSuites.filter fun c => !isGreaseValue c).length) < 100 := by
    split <;> omega
  have h99b : (if (p.AllExtensions.filter fun e =>
        !isGreaseValue e && e ≠ 0x0000 && e ≠ 0x0010).length > 99
      then 99
      else (p.AllExtensions.filter fun e =>
        !isGreaseValue e && e ≠ 0x0000 && e ≠ 0x0010).length) < 100 := by
    split <;> omega
  unfold isJa4Format CalculateJa4Direct
  rw [String.data_append, String.data_append, String.data_append,
    String.data_append, ja4a_data_eq p nv hverd hsnid halpnd,
    fmt02d_data h99a, fmt02d_data h99b]
  have hus : ("_" : String).data = ['_'] := rfl
  rw [hus]
  simp only [List.cons_append, List.nil_append, List.append_assoc]
  exact isJa4FormatL_intro v1 v2 mc _ _ _ _ a1 a2 _ _ hvtok hmok
    (digitChar_isDigit _) (digitChar_isDigit _) (digitChar_isDigit _)
    (digitChar_isDigit _) ha1 ha2 hB.1 hB.2 hC.1 hC.2

/-- Witness for the amended C3. -/
theorem claim_C3_amended_witness :
    ("771" = "769" ∨ "771" = "770" ∨ "771" = "771" ∨ "771" = "772") ∧
    alpnOK sampleHello.SupportedProtocols ∧
    isJa4Format (CalculateJa4Direct sampleHello "771") = true := by
  have h1 : "771" = "769" ∨ "771" = "770" ∨ "771" = "771" ∨ "771" = "772" :=
    Or.inr (Or.inr (Or.inl rfl))
  have h2 : alpnOK sampleHello.SupportedProtocols := by
    intro hnone _
    exact absurd hnone (by decide)
  exact ⟨h1, h2, claim_C3_amended sampleHello "771" h1 h2⟩

end TrackMe
